import Mathlib

/-!
# HabitTracker — verification of the store and rate-guard behaviour

Shallow embedding of the parts of the HabitTracker bot that the
specification's claims are about:

* `services/data_manager.py` (`DataManager`): the persistent store of
  habits, check-ins and bans, with streak/total computations;
* `middlewares/throttling.py` (`ThrottlingMiddleware`, `AntiFloodMiddleware`):
  the pacing gate and the flood gate with progressive penalties;
* `routers/commands.py` (`process_habit_name`, `process_habit_frequency`):
  the habit-creation input validation performed by the handlers.

Modelling conventions:

* Python dicts are insertion-ordered association lists (`List (κ × α)`),
  which is exactly the observable behaviour of `dict` in Python ≥ 3.7;
  dict assignment `d[k] = v` replaces in place when the key is present and
  appends otherwise (`dictInsert` below).
* Calendar dates are integer day ordinals: the code only ever moves between
  dates with `timedelta(days=i)`, and `date.isoformat()` strings are in
  bijection with ordinals, so the composite check-in key
  `f"{habit_id}_{today}"` is modelled as the pair `(habit_id, today)`
  (habit ids are `uuid4` strings, which contain no underscore, and ISO dates
  have fixed length, so the string encoding of the pair is injective).
* Wall-clock instants used only as opaque stamps (`created_at`, `banned_at`,
  `timestamp`) are integers; instants that enter rate arithmetic
  (`datetime.now()` in the middlewares) are rationals, in seconds, and are
  explicit parameters since `datetime.now()` is impure.
* File I/O (`_save_data` / `_load_data`) is outside the model; the
  `try/except` wrappers around the store operations can therefore never
  take their exception branch here.  The `users` collection and the bot
  statistics are not modelled: no claim depends on them, and none of their
  operations touches `habits`, `checkins` or `banned_users`.
-/

namespace HabitTracker

/-- Python dict assignment `d[k] = v` on an insertion-ordered association
list: replace the value in place when the key is present, append otherwise. -/
def dictInsert {κ α : Type} [BEq κ] (l : List (κ × α)) (k : κ) (v : α) :
    List (κ × α) :=
  if l.any (fun p => p.1 == k) then
    l.map (fun p => if p.1 == k then (k, v) else p)
  else l ++ [(k, v)]

/-- Python dict lookup `d.get(k)` on an association list. -/
def dictGet {κ α : Type} [BEq κ] (l : List (κ × α)) (k : κ) : Option α :=
  (l.find? (fun p => p.1 == k)).map (fun p => p.2)

/-- A check-in record (`checkin_data` built in `DataManager.record_checkin`):
`user_id`, `habit_id`, `date` (day ordinal) and creation `timestamp`. -/
structure Checkin where
  user_id : Int
  habit_id : String
  date : Int
  timestamp : Int
deriving DecidableEq, Repr

/-- The dict key `f"{habit_id}_{today}"` of the `checkins` collection,
as the pair it encodes. -/
abbrev CheckinKey := String × Int

/-- A habit record (`habit_data` built in `DataManager.add_habit`).
`active` is `Option Bool` because the code reads it with
`habit_data.get("active", True)` — a record missing the field counts as
active; `deleted_at` is only present after a soft delete. -/
structure Habit where
  id : String
  user_id : Int
  name : String
  frequency : String
  created_at : Int
  active : Option Bool
  deleted_at : Option Int
deriving DecidableEq, Repr

/-- A ban record as written by `DataManager.ban_user`. -/
structure BanRecord where
  user_id : Int
  reason : String
  banned_by : Int
  banned_at : Int
deriving DecidableEq, Repr

/-- The store's collections (`self.data` in `DataManager`), restricted to the
ones the claims are about.  `habits` is the dict `habit_id -> habit` (each
record carries its own key in its `id` field); `checkins` is the dict
`f"{habit_id}_{date}" -> record`; `banned_users` is keyed by the user id
(`str(user_id)`, and `str` is injective on ints). -/
structure DMState where
  habits : List Habit
  checkins : List (CheckinKey × Checkin)
  banned_users : List (Int × BanRecord)
deriving DecidableEq, Repr

/-- The store with all collections empty (a fresh `DataManager`). -/
def emptyDM : DMState := { habits := [], checkins := [], banned_users := [] }

/-- Dict assignment `self.data["habits"][habit_id] = habit_data`, keyed by
the record's `id` field. -/
def habitsInsert (l : List Habit) (hb : Habit) : List Habit :=
  if l.any (fun x => x.id == hb.id) then
    l.map (fun x => if x.id == hb.id then hb else x)
  else l ++ [hb]

/-- `DataManager.add_habit(user_id, name, frequency)`.  The fresh
`uuid.uuid4()` and `datetime.now()` are the explicit parameters `habit_id`
and `now`.  The source performs no validation of `name` or `frequency`; it
unconditionally stores the record and returns the boolean `True` (the
`except` branch returning `False` is unreachable without I/O failures). -/
def add_habit (s : DMState) (user_id : Int) (name : String) (frequency : String)
    (habit_id : String) (now : Int) : DMState × Bool :=
  let habit_data : Habit :=
    { id := habit_id, user_id := user_id, name := name, frequency := frequency,
      created_at := now, active := some true, deleted_at := none }
  ({ s with habits := habitsInsert s.habits habit_data }, true)

/-- `habit_data.get("active", True)`. -/
def activeFlag (hb : Habit) : Bool := hb.active.getD true

/-- `DataManager.get_user_habits`: filter the habits dict (in insertion
order) to those with `habit_data["user_id"] == user_id` and
`habit_data.get("active", True)`, then `user_habits.sort(key=...created_at)`.
Python's `list.sort` is a stable sort by the `created_at` key; any stable
sort by the same key produces the same list, and insertion sort (inserting
before the first element that is not strictly smaller) is stable. -/
def get_user_habits (s : DMState) (user_id : Int) : List Habit :=
  List.insertionSort (fun a b => a.created_at ≤ b.created_at)
    (s.habits.filter (fun hb => hb.user_id == user_id && activeFlag hb))

/-- The habits-dict lookup `self.data["habits"].get(habit_id)`. -/
def findHabit (l : List Habit) (habit_id : String) : Option Habit :=
  l.find? (fun hb => hb.id == habit_id)

/-- `DataManager.get_habit`: the dict lookup followed by
`if habit and habit["user_id"] == user_id`.  The `active` flag is not
consulted. -/
def get_habit (s : DMState) (user_id : Int) (habit_id : String) : Option Habit :=
  match findHabit s.habits habit_id with
  | some habit => if habit.user_id = user_id then some habit else none
  | none => none

/-- `DataManager.delete_habit`: a soft delete.  When `get_habit` finds the
habit (ownership check, `active` ignored) it sets `active = False` and
`deleted_at = now` on the stored record and returns `True`; otherwise it
returns `False`. -/
def delete_habit (s : DMState) (user_id : Int) (habit_id : String) (now : Int) :
    DMState × Bool :=
  match get_habit s user_id habit_id with
  | some _ =>
      ({ s with habits := s.habits.map (fun hb =>
          if hb.id == habit_id then
            { hb with active := some false, deleted_at := some now }
          else hb) }, true)
  | none => (s, false)

/-- `DataManager.record_checkin`: builds `checkin_id = f"{habit_id}_{today}"`,
returns `False` if that key is already present (whoever stored it), and
otherwise stores the record and returns `True`.  `today` is
`date.today()` and `now` the `datetime.now()` stamp. -/
def record_checkin (s : DMState) (user_id : Int) (habit_id : String)
    (today : Int) (now : Int) : DMState × Bool :=
  let checkin_id : CheckinKey := (habit_id, today)
  if (dictGet s.checkins checkin_id).isSome then (s, false)
  else
    let checkin_data : Checkin :=
      { user_id := user_id, habit_id := habit_id, date := today,
        timestamp := now }
    ({ s with checkins := s.checkins ++ [(checkin_id, checkin_data)] }, true)

/-- `DataManager.is_checked_in_today`: the key lookup plus
`checkin is not None and checkin["user_id"] == user_id`. -/
def is_checked_in_today (s : DMState) (user_id : Int) (habit_id : String)
    (today : Int) : Bool :=
  match dictGet s.checkins (habit_id, today) with
  | some checkin => checkin.user_id == user_id
  | none => false

/-- The loop of `DataManager.get_current_streak`: `for i in range(365)`
walks backward from `check_date`, incrementing the streak while the day's
check-in exists and belongs to `user_id`, and `break`s at the first miss.
`fuel` is the number of loop iterations left. -/
def streakLoop (cs : List (CheckinKey × Checkin)) (user_id : Int)
    (habit_id : String) : Int → Nat → Nat
  | _, 0 => 0
  | check_date, fuel + 1 =>
    match dictGet cs (habit_id, check_date) with
    | some checkin =>
        if checkin.user_id = user_id then
          streakLoop cs user_id habit_id (check_date - 1) fuel + 1
        else 0
    | none => 0

/-- `DataManager.get_current_streak` (`today` is `date.today()`). -/
def get_current_streak (s : DMState) (user_id : Int) (habit_id : String)
    (today : Int) : Nat :=
  streakLoop s.checkins user_id habit_id today 365

/-- `DataManager.get_total_checkins`: count every stored check-in whose
`user_id` and `habit_id` fields match; the habit's `active` flag plays no
role. -/
def get_total_checkins (s : DMState) (user_id : Int) (habit_id : String) : Nat :=
  (s.checkins.filter
    (fun p => p.2.user_id == user_id && p.2.habit_id == habit_id)).length

/-- `DataManager.ban_user`: unconditionally assigns the new record into
`banned_users` (overwriting any existing one) and returns `True`; the
already-banned case is not consulted. -/
def ban_user (s : DMState) (user_id : Int) (reason : String) (banned_by : Int)
    (now : Int) : DMState × Bool :=
  let record : BanRecord :=
    { user_id := user_id, reason := reason, banned_by := banned_by,
      banned_at := now }
  ({ s with banned_users := dictInsert s.banned_users user_id record }, true)

/-- `DataManager.unban_user`: if the key is present, `del` it and return
`True`, else return `False`.  Deleting the (unique) entry of a dict is
filtering it out of the association list. -/
def unban_user (s : DMState) (user_id : Int) : DMState × Bool :=
  if s.banned_users.any (fun p => p.1 == user_id) then
    ({ s with banned_users := s.banned_users.filter (fun p => p.1 != user_id) },
     true)
  else (s, false)

/-- `DataManager.is_user_banned`: key presence in `banned_users`. -/
def is_user_banned (s : DMState) (user_id : Int) : Bool :=
  s.banned_users.any (fun p => p.1 == user_id)

/-- Python `str.strip()`: drop leading and trailing whitespace.  Modelled
on the string's character list (core's `String.trim` is byte-position based
and does not reduce inside proofs; on well-formed strings the two agree). -/
def strip (t : String) : String :=
  ⟨((t.data.dropWhile Char.isWhitespace).reverse.dropWhile
      Char.isWhitespace).reverse⟩

/-- `process_habit_name` (`routers/commands.py`): the candidate name is
`message.text.strip()`; it is rejected iff `len < 2 or len > 50`.  This
returns whether the handler accepts the name and proceeds to the frequency
step. -/
def habit_name_accepted (text : String) : Bool :=
  let habit_name := strip text
  !(habit_name.length < 2 || habit_name.length > 50)

/-- The `frequency_map` dict of `process_habit_frequency`
(`routers/commands.py`), applied to `message.text.strip().lower()`. -/
def frequency_map (frequency_text : String) : Option String :=
  match frequency_text with
  | "daily" => some "daily"
  | "каждый день" => some "daily"
  | "ежедневно" => some "daily"
  | "weekly" => some "weekly"
  | "еженедельно" => some "weekly"
  | "раз в неделю" => some "weekly"
  | "3 times a week" => some "3_times_week"
  | "3 раза в неделю" => some "3_times_week"
  | _ => none

/-- State of `ThrottlingMiddleware` (`middlewares/throttling.py`): the
configured `rate_limit` (`THROTTLE_RATE_LIMIT`, default `1` second in
`config/settings.py`) and the `user_requests` dict mapping a user id to the
time of their last accepted action, in seconds. -/
structure ThrottlingMiddleware where
  rate_limit : ℚ
  user_requests : List (Int × ℚ)
deriving DecidableEq, Repr

/-- The outcome of one middleware call for an identified user: the update is
either forwarded to the downstream handler, or dropped; a pacing rejection
carries the `wait_time = rate_limit - time_diff` reported by
`_send_throttling_message`. -/
inductive ThrottleOutcome where
  | handled
  | rejected (wait_time : ℚ)
deriving DecidableEq, Repr

/-- `ThrottlingMiddleware._cleanup_old_entries`: delete every entry whose
timestamp is older than one hour (`cutoff_time = now - timedelta(hours=1)`). -/
def cleanup_old_entries (l : List (Int × ℚ)) (now : ℚ) : List (Int × ℚ) :=
  l.filter (fun p => !decide (p.2 < now - 3600))

/-- `ThrottlingMiddleware.__call__` for an event with an identified user
(`user_id is None` bypasses the gate entirely and is not modelled):
`_is_rate_limited` compares `time_diff = now - last_request` with the rate
limit; a limited user's update is dropped with the state untouched,
otherwise `user_requests[user_id] = now` is recorded, old entries are
cleaned up, and the handler runs. -/
def throttlingCall (m : ThrottlingMiddleware) (user_id : Int) (now : ℚ) :
    ThrottlingMiddleware × ThrottleOutcome :=
  match dictGet m.user_requests user_id with
  | some last_request =>
      let time_diff := now - last_request
      if time_diff < m.rate_limit then
        (m, ThrottleOutcome.rejected (m.rate_limit - time_diff))
      else
        ({ m with user_requests :=
            cleanup_old_entries (dictInsert m.user_requests user_id now) now },
         ThrottleOutcome.handled)
  | none =>
      ({ m with user_requests :=
          cleanup_old_entries (dictInsert m.user_requests user_id now) now },
       ThrottleOutcome.handled)

/-- State of `AntiFloodMiddleware`: constructor defaults are
`flood_threshold = 5` (max messages per window) and `flood_window = 10`
seconds; `user_message_count` maps a user to their sliding window of message
times and `penalties` maps a user to their penalty end time. -/
structure AntiFloodMiddleware where
  flood_threshold : Nat
  flood_window : ℚ
  user_message_count : List (Int × List ℚ)
  penalties : List (Int × ℚ)
deriving DecidableEq, Repr

/-- The outcome of one `AntiFloodMiddleware.__call__` for an identified
user: forwarded to the handler, dropped because a penalty is being served,
or dropped because this very message tripped the flood threshold (carrying
the `penalty_duration` that was applied). -/
inductive FloodOutcome where
  | handled
  | droppedPenalized
  | penalized (penalty_duration : ℚ)
deriving DecidableEq, Repr

/-- `AntiFloodMiddleware._is_penalized`: no entry means not penalized; an
entry with `datetime.now() >= penalty_end` is deleted (returning the updated
`penalties` dict) and means not penalized; otherwise the user is penalized. -/
def is_penalized (penalties : List (Int × ℚ)) (user_id : Int) (now : ℚ) :
    Bool × List (Int × ℚ) :=
  match dictGet penalties user_id with
  | none => (false, penalties)
  | some penalty_end =>
      if penalty_end ≤ now then (false, penalties.filter (fun p => p.1 != user_id))
      else (true, penalties)

/-- `AntiFloodMiddleware._apply_penalty`: `penalty_duration` starts at 30
seconds and is replaced by `min(penalty_duration * 3, 900)` only when the
user still has an entry in `penalties`; the entry `now + penalty_duration`
is then stored.  Returns the updated dict and the applied duration. -/
def apply_penalty (penalties : List (Int × ℚ)) (user_id : Int) (now : ℚ) :
    List (Int × ℚ) × ℚ :=
  let penalty_duration : ℚ := 30
  let penalty_duration :=
    if penalties.any (fun p => p.1 == user_id) then min (penalty_duration * 3) 900
    else penalty_duration
  (dictInsert penalties user_id (now + penalty_duration), penalty_duration)

/-- `AntiFloodMiddleware.__call__` for an identified user: drop if penalized
(`_is_penalized` may delete an expired entry as a side effect); otherwise
refresh the user's window (keep timestamps with `now - t <= flood_window`,
append `now`), and if the window now holds strictly more than
`flood_threshold` messages, apply a penalty and drop the update. -/
def floodCall (m : AntiFloodMiddleware) (user_id : Int) (now : ℚ) :
    AntiFloodMiddleware × FloodOutcome :=
  match is_penalized m.penalties user_id now with
  | (true, penalties1) =>
      ({ m with penalties := penalties1 }, FloodOutcome.droppedPenalized)
  | (false, penalties1) =>
      let msgs0 := (dictGet m.user_message_count user_id).getD []
      let msgs1 := msgs0.filter (fun msg_time => decide (now - msg_time ≤ m.flood_window))
      let msgs := msgs1 ++ [now]
      let m1 : AntiFloodMiddleware :=
        { m with penalties := penalties1,
                 user_message_count := dictInsert m.user_message_count user_id msgs }
      if msgs.length > m.flood_threshold then
        let applied := apply_penalty penalties1 user_id now
        ({ m1 with penalties := applied.1 }, FloodOutcome.penalized applied.2)
      else (m1, FloodOutcome.handled)

/-! ## Concrete states used by the witnesses and counterexamples -/

/-- A stored check-in entry for user `u`, habit `h`, day `d` (stamp 0),
under its dict key. -/
def mkCheckin (u : Int) (h : String) (d : Int) : CheckinKey × Checkin :=
  ((h, d), { user_id := u, habit_id := h, date := d, timestamp := 0 })

/-- Check-ins on days `today (= 0)`, `today - 1`, `today - 2` and none on
`today - 3`, all by user 1 on habit `"h"`. -/
def threeDayState : DMState :=
  { habits := [], banned_users := [],
    checkins := [mkCheckin 1 "h" 0, mkCheckin 1 "h" (-1), mkCheckin 1 "h" (-2)] }

/-- `n` consecutive daily check-ins for user `u` on habit `h`, on days
`d, d - 1, ..., d - (n - 1)`. -/
def consecutiveCheckins (u : Int) (h : String) : Int → Nat → List (CheckinKey × Checkin)
  | _, 0 => []
  | d, n + 1 => mkCheckin u h d :: consecutiveCheckins u h (d - 1) n

/-- A 400-day unbroken run of check-ins ending today (= day 0). -/
def run400State : DMState :=
  { habits := [], banned_users := [], checkins := consecutiveCheckins 1 "h" 0 400 }

/-- A store holding a single check-in for `(habit "h", today = 0)` recorded
by user 1 — queried below on behalf of user 2. -/
def crossUserState : DMState :=
  { habits := [], banned_users := [], checkins := [mkCheckin 1 "h" 0] }

/-- A store in which user 5 is already banned. -/
def bannedState : DMState :=
  { habits := [], checkins := [],
    banned_users := [(5, { user_id := 5, reason := "spam", banned_by := 1,
                           banned_at := 0 })] }

/-- A habit of user 1 that has already been soft-deleted (at time 10). -/
def softDeletedHabit : Habit :=
  { id := "id0", user_id := 1, name := "run", frequency := "daily",
    created_at := 0, active := some false, deleted_at := some 10 }

/-- A store whose only habit is already soft-deleted. -/
def softDeletedState : DMState :=
  { habits := [softDeletedHabit], checkins := [], banned_users := [] }

/-- A fresh pacing gate with the default 1-second rate limit. -/
def thrM0 : ThrottlingMiddleware := { rate_limit := 1, user_requests := [] }

/-- User 7 acts at time 0 on a fresh pacing gate. -/
def throttleStep1 : ThrottlingMiddleware × ThrottleOutcome :=
  throttlingCall thrM0 7 0

/-- The same user acts again 0.1 s later. -/
def throttleStep2 : ThrottlingMiddleware × ThrottleOutcome :=
  throttlingCall throttleStep1.1 7 (1 / 10)

/-- A fresh flood gate with `flood_threshold = 1` (the threshold only sets
how many messages inside the window constitute a violation; the penalty
arithmetic under scrutiny is independent of it) and the default 10-second
window. -/
def floodM1 : AntiFloodMiddleware :=
  { flood_threshold := 1, flood_window := 10,
    user_message_count := [], penalties := [] }

/-- User 1 messages at `t = 0`: within the threshold, handled. -/
def floodStep1 : AntiFloodMiddleware × FloodOutcome := floodCall floodM1 1 0

/-- Second message at `t = 1`: 2 messages in the window exceed the
threshold — first flood violation. -/
def floodStep2 : AntiFloodMiddleware × FloodOutcome := floodCall floodStep1.1 1 1

/-- Next message at `t = 40`, after the penalty has expired: handled. -/
def floodStep3 : AntiFloodMiddleware × FloodOutcome := floodCall floodStep2.1 1 40

/-- Another message at `t = 41`: second flood violation while the user is
still tracked in `user_message_count`. -/
def floodStep4 : AntiFloodMiddleware × FloodOutcome := floodCall floodStep3.1 1 41

/-- A default-parameter flood gate (`threshold 5`, `window 10`) in which
user 1 has already sent five messages at `t = 0 .. 4`. -/
def floodWindowState : AntiFloodMiddleware :=
  { flood_threshold := 5, flood_window := 10,
    user_message_count := [(1, [0, 1, 2, 3, 4])], penalties := [] }

/-- The sixth message at `t = 5` trips the flood threshold. -/
def floodWindowStep : AntiFloodMiddleware × FloodOutcome :=
  floodCall floodWindowState 1 5

/-- The per-day test shared by the streak loop and `is_checked_in_today`:
the check-in for `(habit_id, d)` exists and belongs to `user_id`. -/
def userCheckinAt (cs : List (CheckinKey × Checkin)) (user_id : Int)
    (habit_id : String) (d : Int) : Bool :=
  match dictGet cs (habit_id, d) with
  | some checkin => checkin.user_id == user_id
  | none => false

/-- The store invariant claimed for check-ins: at most one record per
`(habit, calendar date)` key. -/
def AtMostOnePerDay (cs : List (CheckinKey × Checkin)) : Prop :=
  ∀ k : CheckinKey, (cs.filter (fun p => p.1 == k)).length ≤ 1

/-- The habit listing is ordered by the habits' creation times. -/
abbrev createdOrder : Habit → Habit → Prop := fun a b => a.created_at ≤ b.created_at

instance : IsTotal Habit createdOrder :=
  ⟨fun a b => le_total a.created_at b.created_at⟩

instance : IsTrans Habit createdOrder :=
  ⟨fun _ _ _ hab hbc => le_trans hab hbc⟩

/-! ## Dictionary lemmas -/

theorem find?_map_update {κ α : Type} [BEq κ] [LawfulBEq κ]
    (l : List (κ × α)) (k : κ) (v : α)
    (hany : l.any (fun p => p.1 == k) = true) :
    (l.map (fun p => if p.1 == k then (k, v) else p)).find?
        (fun p => p.1 == k) = some (k, v) := by
  induction l with
  | nil => simp at hany
  | cons x xs ih =>
    by_cases hx : (x.1 == k) = true
    · simp only [List.map_cons, if_pos hx]
      exact List.find?_cons_of_pos _ (by simp)
    · simp only [List.map_cons, if_neg hx]
      rw [List.find?_cons_of_neg _ (by simpa using hx)]
      apply ih
      simpa [hx] using hany

theorem find?_append_singleton {κ α : Type} [BEq κ] [LawfulBEq κ]
    (l : List (κ × α)) (k : κ) (v : α)
    (hany : l.any (fun p => p.1 == k) = false) :
    (l ++ [(k, v)]).find? (fun p => p.1 == k) = some (k, v) := by
  induction l with
  | nil => simp
  | cons x xs ih =>
    simp only [List.any_cons, Bool.or_eq_false_iff] at hany
    rw [List.cons_append, List.find?_cons_of_neg _ (by simp [hany.1])]
    exact ih hany.2

theorem find?_dictInsert_self {κ α : Type} [BEq κ] [LawfulBEq κ]
    (l : List (κ × α)) (k : κ) (v : α) :
    (dictInsert l k v).find? (fun p => p.1 == k) = some (k, v) := by
  unfold dictInsert
  split
  case isTrue hany => exact find?_map_update l k v hany
  case isFalse hany =>
    exact find?_append_singleton l k v (Bool.not_eq_true _ ▸ eq_false_of_ne_true hany)

theorem dictGet_dictInsert_self {κ α : Type} [BEq κ] [LawfulBEq κ]
    (l : List (κ × α)) (k : κ) (v : α) :
    dictGet (dictInsert l k v) k = some v := by
  unfold dictGet
  rw [find?_dictInsert_self]
  rfl

theorem dictGet_eq_none_iff {κ α : Type} [BEq κ]
    (l : List (κ × α)) (k : κ) :
    dictGet l k = none ↔ l.any (fun p => p.1 == k) = false := by
  unfold dictGet
  simp [List.find?_eq_none, List.any_eq_true]

theorem find?_filter_of_pos {α : Type} (p q : α → Bool) (l : List α) (a : α)
    (hfind : l.find? p = some a) (hq : q a = true) :
    (l.filter q).find? p = some a := by
  induction l with
  | nil => simp at hfind
  | cons x xs ih =>
    by_cases hx : p x = true
    · rw [List.find?_cons_of_pos _ hx] at hfind
      cases hfind
      rw [List.filter_cons, if_pos hq, List.find?_cons_of_pos _ hx]
    · rw [List.find?_cons_of_neg _ (by simpa using hx)] at hfind
      rw [List.filter_cons]
      by_cases hqx : q x = true
      · rw [if_pos hqx, List.find?_cons_of_neg _ (by simpa using hx)]
        exact ih hfind
      · rw [if_neg hqx]
        exact ih hfind

/-! ## Streak-loop lemmas -/

theorem streakLoop_succ (cs : List (CheckinKey × Checkin)) (u : Int)
    (h : String) (d : Int) (fuel : Nat) :
    streakLoop cs u h d (fuel + 1) =
      if userCheckinAt cs u h d = true then
        streakLoop cs u h (d - 1) fuel + 1
      else 0 := by
  conv_lhs => rw [streakLoop]
  unfold userCheckinAt
  cases dictGet cs (h, d) with
  | none => simp
  | some c =>
      by_cases hc : c.user_id = u
      · simp [hc]
      · simp [hc]

theorem streakLoop_le (cs : List (CheckinKey × Checkin)) (u : Int)
    (h : String) :
    ∀ (fuel : Nat) (d : Int), streakLoop cs u h d fuel ≤ fuel := by
  intro fuel
  induction fuel with
  | zero => intro d; simp [streakLoop]
  | succ n ih =>
      intro d
      rw [streakLoop_succ]
      by_cases hd : userCheckinAt cs u h d = true
      · rw [if_pos hd]
        exact Nat.succ_le_succ (ih (d - 1))
      · rw [if_neg hd]
        exact Nat.zero_le _

theorem streakLoop_mem (cs : List (CheckinKey × Checkin)) (u : Int)
    (h : String) :
    ∀ (fuel : Nat) (d : Int) (i : Nat), i < streakLoop cs u h d fuel →
      userCheckinAt cs u h (d - i) = true := by
  intro fuel
  induction fuel with
  | zero => intro d i hi; simp [streakLoop] at hi
  | succ n ih =>
      intro d i hi
      rw [streakLoop_succ] at hi
      by_cases hd : userCheckinAt cs u h d = true
      · rw [if_pos hd] at hi
        cases i with
        | zero => simpa using hd
        | succ i =>
            have hlt : i < streakLoop cs u h (d - 1) n := by omega
            have := ih (d - 1) i hlt
            have harith : d - 1 - (i : Int) = d - ((i : Nat) + 1 : Nat) := by
              push_cast
              ring
            rwa [harith] at this
      · rw [if_neg hd] at hi
        omega

theorem streakLoop_stop (cs : List (CheckinKey × Checkin)) (u : Int)
    (h : String) :
    ∀ (fuel : Nat) (d : Int), streakLoop cs u h d fuel < fuel →
      userCheckinAt cs u h (d - (streakLoop cs u h d fuel : Nat)) = false := by
  intro fuel
  induction fuel with
  | zero => intro d hd; omega
  | succ n ih =>
      intro d hd
      rw [streakLoop_succ] at hd ⊢
      by_cases hckd : userCheckinAt cs u h d = true
      · rw [if_pos hckd] at hd ⊢
        have hlt : streakLoop cs u h (d - 1) n < n := by omega
        have := ih (d - 1) hlt
        have harith : d - 1 - (streakLoop cs u h (d - 1) n : Int)
            = d - ((streakLoop cs u h (d - 1) n + 1 : Nat) : Int) := by
          push_cast
          ring
        rwa [harith] at this
      · rw [if_neg hckd]
        simp only [Nat.cast_zero, sub_zero]
        exact eq_false_of_ne_true hckd

theorem streakLoop_full (cs : List (CheckinKey × Checkin)) (u : Int)
    (h : String) :
    ∀ (fuel : Nat) (d : Int),
      (∀ i : Nat, i < fuel → userCheckinAt cs u h (d - i) = true) →
      streakLoop cs u h d fuel = fuel := by
  intro fuel
  induction fuel with
  | zero => intro d _; simp [streakLoop]
  | succ n ih =>
      intro d hall
      rw [streakLoop_succ]
      have h0 : userCheckinAt cs u h d = true := by
        have := hall 0 (Nat.succ_pos n)
        simpa using this
      rw [if_pos h0, ih (d - 1)]
      intro i hi
      have := hall (i + 1) (by omega)
      have harith : d - ((i : Nat) + 1 : Nat) = d - 1 - (i : Int) := by
        push_cast
        ring
      rwa [harith] at this

theorem consecutiveCheckins_mem (u : Int) (h : String) :
    ∀ (n : Nat) (d : Int) (i : Nat), i < n →
      userCheckinAt (consecutiveCheckins u h d n) u h (d - i) = true := by
  intro n
  induction n with
  | zero => intro d i hi; omega
  | succ n ih =>
      intro d i hi
      cases i with
      | zero =>
          simp only [Nat.cast_zero, sub_zero, consecutiveCheckins, mkCheckin]
          unfold userCheckinAt dictGet
          rw [List.find?_cons_of_pos _ (by simp)]
          simp
      | succ i =>
          have hne : ((h, d) : CheckinKey) ≠ (h, d - ((i : Nat) + 1 : Nat)) := by
            intro hcontra
            have := congrArg Prod.snd hcontra
            simp at this
            omega
          have hstep : userCheckinAt (consecutiveCheckins u h d (n + 1)) u h
              (d - ((i : Nat) + 1 : Nat))
              = userCheckinAt (consecutiveCheckins u h (d - 1) n) u h
                  (d - ((i : Nat) + 1 : Nat)) := by
            simp only [consecutiveCheckins, mkCheckin]
            unfold userCheckinAt dictGet
            rw [List.find?_cons_of_neg _ (by simpa using hne)]
          rw [hstep]
          have harith : d - ((i : Nat) + 1 : Nat) = d - 1 - (i : Int) := by
            push_cast
            ring
          rw [harith]
          exact ih (d - 1) i (by omega)

/-! ## Middleware lemmas -/

theorem dictGet_insert_cleanup (l : List (Int × ℚ)) (u : Int) (now : ℚ) :
    dictGet (cleanup_old_entries (dictInsert l u now) now) u = some now := by
  unfold dictGet cleanup_old_entries
  have hq : (fun p : Int × ℚ => !decide (p.2 < now - 3600)) (u, now) = true := by
    have : ¬ (now < now - 3600) := by linarith
    simp [this]
  rw [find?_filter_of_pos _ _ _ _ (find?_dictInsert_self l u now) hq]
  rfl

theorem is_penalized_false_no_entry (penalties : List (Int × ℚ))
    (user_id : Int) (now : ℚ)
    (h : (is_penalized penalties user_id now).1 = false) :
    (is_penalized penalties user_id now).2.any (fun p => p.1 == user_id)
      = false := by
  unfold is_penalized at h ⊢
  cases hg : dictGet penalties user_id with
  | none => simpa using (dictGet_eq_none_iff penalties user_id).mp hg
  | some pe =>
      by_cases hle : pe ≤ now
      · simp [hle]
      · rw [hg] at h
        simp [hle] at h

theorem apply_penalty_no_entry (penalties : List (Int × ℚ)) (u : Int) (now : ℚ)
    (h : penalties.any (fun p => p.1 == u) = false) :
    (apply_penalty penalties u now).2 = 30 := by
  unfold apply_penalty
  simp [h]

theorem apply_penalty_with_entry (penalties : List (Int × ℚ)) (u : Int) (now : ℚ)
    (h : penalties.any (fun p => p.1 == u) = true) :
    (apply_penalty penalties u now).2 = 90 := by
  unfold apply_penalty
  simp only [h, if_true]
  norm_num

/-! ## Concrete pacing-gate and flood-gate runs -/

theorem throttleStep1_eq :
    throttleStep1
      = ({ rate_limit := 1, user_requests := [(7, 0)] },
         ThrottleOutcome.handled) := by
  unfold throttleStep1 throttlingCall thrM0 dictGet dictInsert cleanup_old_entries
  norm_num [List.find?, List.filter]

theorem throttleStep2_eq :
    throttleStep2
      = ({ rate_limit := 1, user_requests := [(7, 0)] },
         ThrottleOutcome.rejected (9 / 10)) := by
  rw [throttleStep2, throttleStep1_eq]
  unfold throttlingCall dictGet
  norm_num [List.find?]

theorem floodStep1_eq :
    floodStep1
      = ({ flood_threshold := 1, flood_window := 10,
           user_message_count := [(1, [0])], penalties := [] },
         FloodOutcome.handled) := by
  unfold floodStep1 floodCall floodM1 is_penalized apply_penalty dictGet dictInsert
  norm_num [List.find?, List.filter]

theorem floodStep2_eq :
    floodStep2
      = ({ flood_threshold := 1, flood_window := 10,
           user_message_count := [(1, [0, 1])], penalties := [(1, 31)] },
         FloodOutcome.penalized 30) := by
  rw [floodStep2, floodStep1_eq]
  unfold floodCall is_penalized apply_penalty dictGet dictInsert
  norm_num [List.find?, List.filter]

theorem floodStep3_eq :
    floodStep3
      = ({ flood_threshold := 1, flood_window := 10,
           user_message_count := [(1, [40])], penalties := [] },
         FloodOutcome.handled) := by
  rw [floodStep3, floodStep2_eq]
  unfold floodCall is_penalized apply_penalty dictGet dictInsert
  norm_num [List.find?, List.filter]

theorem floodStep4_eq :
    floodStep4
      = ({ flood_threshold := 1, flood_window := 10,
           user_message_count := [(1, [40, 41])], penalties := [(1, 71)] },
         FloodOutcome.penalized 30) := by
  rw [floodStep4, floodStep3_eq]
  unfold floodCall is_penalized apply_penalty dictGet dictInsert
  norm_num [List.find?, List.filter]

theorem floodWindowStep_eq :
    floodWindowStep
      = ({ flood_threshold := 5, flood_window := 10,
           user_message_count := [(1, [0, 1, 2, 3, 4, 5])],
           penalties := [(1, 35)] },
         FloodOutcome.penalized 30) := by
  unfold floodWindowStep floodCall floodWindowState is_penalized apply_penalty
    dictGet dictInsert
  norm_num [List.find?, List.filter]

/-! ## Habit-map lemmas -/

theorem findHabit_map_update (l : List Habit) (habit_id : String)
    (upd : Habit → Habit) (hid : ∀ x, (upd x).id = x.id) :
    findHabit (l.map (fun x => if x.id == habit_id then upd x else x)) habit_id
      = (findHabit l habit_id).map upd := by
  induction l with
  | nil => rfl
  | cons x xs ih =>
      unfold findHabit at ih ⊢
      by_cases hx : (x.id == habit_id) = true
      · simp only [List.map_cons, if_pos hx]
        rw [List.find?_cons_of_pos _ (by rw [hid]; exact hx)]
        rw [show List.find? (fun hb => hb.id == habit_id) (x :: xs) = some x from
          List.find?_cons_of_pos _ hx]
        rfl
      · simp only [List.map_cons, if_neg hx]
        rw [List.find?_cons_of_neg _ (by simpa using hx),
            List.find?_cons_of_neg _ (by simpa using hx)]
        exact ih

theorem dictGet_append_singleton {κ α : Type} [BEq κ] [LawfulBEq κ]
    (l : List (κ × α)) (k : κ) (v : α)
    (h : dictGet l k = none) : dictGet (l ++ [(k, v)]) k = some v := by
  unfold dictGet
  rw [find?_append_singleton l k v ((dictGet_eq_none_iff l k).mp h)]
  rfl

theorem filter_key_eq_nil {κ α : Type} [BEq κ] (l : List (κ × α)) (k : κ)
    (h : dictGet l k = none) : l.filter (fun p => p.1 == k) = [] := by
  unfold dictGet at h
  cases hf : List.find? (fun p => p.1 == k) l with
  | none =>
      rw [List.find?_eq_none] at hf
      rw [List.filter_eq_nil_iff]
      exact hf
  | some p =>
      rw [hf] at h
      simp at h

/-! ## The claims -/

/-- C2.  Check-in uniqueness at the store: when a check-in keyed by
`(habit_id, today)` already exists — whoever recorded it —
`record_checkin` returns `False` and leaves the whole store (in particular
the check-in collection) unchanged; otherwise it appends exactly the one new
record under that key and returns `True`.  At-most-one-check-in per
`(habit, date)` is preserved by `record_checkin`, and every other store
operation leaves the check-in collection untouched.  Finally, a second
`record_checkin` for the same habit and date (by any user) after a
successful one returns `False`. -/
theorem record_checkin_unique_spec (s : DMState) (user_id : Int)
    (habit_id : String) (today : Int) (now : Int) :
    ((dictGet s.checkins (habit_id, today)).isSome = true →
        record_checkin s user_id habit_id today now = (s, false))
    ∧ (dictGet s.checkins (habit_id, today) = none →
        record_checkin s user_id habit_id today now
          = ({ s with checkins := s.checkins ++
                [((habit_id, today),
                  { user_id := user_id, habit_id := habit_id, date := today,
                    timestamp := now })] }, true))
    ∧ (AtMostOnePerDay s.checkins →
        AtMostOnePerDay (record_checkin s user_id habit_id today now).1.checkins)
    ∧ (∀ nm fq hid t, (add_habit s user_id nm fq hid t).1.checkins = s.checkins)
    ∧ (∀ hid t, (delete_habit s user_id hid t).1.checkins = s.checkins)
    ∧ (∀ r b t, (ban_user s user_id r b t).1.checkins = s.checkins)
    ∧ (unban_user s user_id).1.checkins = s.checkins
    ∧ ((record_checkin s user_id habit_id today now).2 = true →
        ∀ u2 t2, (record_checkin (record_checkin s user_id habit_id today now).1
          u2 habit_id today t2).2 = false) := by
  refine ⟨?_, ?_, ?_, ?_, ?_, ?_, ?_, ?_⟩
  · intro hsome
    simp [record_checkin, hsome]
  · intro hnone
    simp [record_checkin, hnone]
  · intro hinv
    by_cases hsome : (dictGet s.checkins (habit_id, today)).isSome = true
    · simpa [record_checkin, hsome] using hinv
    · have hnone : dictGet s.checkins (habit_id, today) = none := by
        cases hg : dictGet s.checkins (habit_id, today) with
        | none => rfl
        | some c => rw [hg] at hsome; simp at hsome
      intro k2
      have hred : (record_checkin s user_id habit_id today now).1.checkins
          = s.checkins ++ [((habit_id, today),
              { user_id := user_id, habit_id := habit_id, date := today,
                timestamp := now })] := by
        simp [record_checkin, hnone]
      rw [hred, List.filter_append]
      by_cases hk : ((habit_id, today) : CheckinKey) = k2
      · rw [← hk, filter_key_eq_nil s.checkins _ hnone]
        simp
      · have : ((((habit_id, today) : CheckinKey) == k2) = false) := by
          simpa using hk
        simp only [List.filter_cons, List.filter_nil, this]
        simpa using hinv k2
  · intro nm fq hid t
    rfl
  · intro hid t
    unfold delete_habit
    cases get_habit s user_id hid <;> rfl
  · intro r b t
    rfl
  · unfold unban_user
    split <;> rfl
  · intro hsucc u2 t2
    by_cases hsome : (dictGet s.checkins (habit_id, today)).isSome = true
    · simp [record_checkin, hsome] at hsucc
    · have hnone : dictGet s.checkins (habit_id, today) = none := by
        cases hg : dictGet s.checkins (habit_id, today) with
        | none => rfl
        | some c => rw [hg] at hsome; simp at hsome
      have hinner : record_checkin s user_id habit_id today now
          = ({ s with checkins := s.checkins ++ [((habit_id, today),
                { user_id := user_id, habit_id := habit_id, date := today,
                  timestamp := now })] }, true) := by
        simp [record_checkin, hnone]
      have hget := dictGet_append_singleton s.checkins
        ((habit_id, today) : CheckinKey)
        ({ user_id := user_id, habit_id := habit_id, date := today,
           timestamp := now } : Checkin) hnone
      rw [hinner]
      simp [record_checkin, hget]

theorem any_eq_true_of_dictGet_some {κ α : Type} [BEq κ]
    (l : List (κ × α)) (k : κ) (v : α) (h : dictGet l k = some v) :
    l.any (fun p => p.1 == k) = true := by
  unfold dictGet at h
  cases hf : l.find? (fun p => p.1 == k) with
  | none => rw [hf] at h; simp at h
  | some p =>
      rw [List.any_eq_true]
      exact ⟨p, List.mem_of_find?_eq_some hf, (List.find?_eq_some.mp hf).1⟩

/-- C3 counterexample.  User 5 is already banned in `bannedState`, yet
`ban_user` returns `True` — the claim says a second ban returns false and
leaves the existing record unchanged — and the stored record is in fact
replaced by the new reason/admin/time. -/
theorem ban_already_banned_cex :
    is_user_banned bannedState 5 = true
    ∧ (ban_user bannedState 5 "again" 2 7).2 = true
    ∧ (ban_user bannedState 5 "again" 2 7).1.banned_users
        = [(5, { user_id := 5, reason := "again", banned_by := 2,
                 banned_at := 7 })] := by
  refine ⟨rfl, rfl, rfl⟩

/-- C3 (amended).  `ban_user` always returns `True` and overwrites any
existing ban record with the new reason/admin/time (so ban then `isBanned`
is true, and a second ban also returns `True`); `unban_user` returns
`True` exactly when the user was banned, i.e. `False` when the user is not
banned, and afterwards the user is not banned. -/
theorem ban_unban_semantics (s : DMState) (user_id : Int) (reason : String)
    (banned_by : Int) (now : Int) :
    (ban_user s user_id reason banned_by now).2 = true
    ∧ dictGet (ban_user s user_id reason banned_by now).1.banned_users user_id
        = some (BanRecord.mk user_id reason banned_by now)
    ∧ is_user_banned (ban_user s user_id reason banned_by now).1 user_id = true
    ∧ (unban_user s user_id).2 = is_user_banned s user_id
    ∧ is_user_banned (unban_user s user_id).1 user_id = false := by
  have hget : dictGet (ban_user s user_id reason banned_by now).1.banned_users
      user_id = some (BanRecord.mk user_id reason banned_by now) := by
    unfold ban_user
    exact dictGet_dictInsert_self s.banned_users user_id _
  refine ⟨rfl, hget, ?_, ?_, ?_⟩
  · exact any_eq_true_of_dictGet_some _ _ _ hget
  · unfold unban_user is_user_banned
    by_cases hb : s.banned_users.any (fun p => p.1 == user_id) = true
    · rw [if_pos hb, hb]
    · rw [if_neg hb]
      rw [eq_false_of_ne_true hb]
  · unfold unban_user is_user_banned
    by_cases hb : s.banned_users.any (fun p => p.1 == user_id) = true
    · rw [if_pos hb]
      simp
    · rw [if_neg hb]
      exact eq_false_of_ne_true hb

/-- C4.  `get_current_streak` walks backward from `today`: it is at most
365; every one of its first `streak` days (counted back from `today`) has a
check-in belonging to the querying user; if it stopped before the 365-day
horizon, the next day back has none.  Concretely: check-ins on
`{today, today - 1, today - 2}` and none on `today - 3` give 3, an empty
store gives 0, and a 400-day unbroken run gives the horizon cap 365. -/
theorem get_current_streak_spec (s : DMState) (user_id : Int)
    (habit_id : String) (today : Int) :
    get_current_streak s user_id habit_id today ≤ 365
    ∧ (∀ i : Nat, i < get_current_streak s user_id habit_id today →
        userCheckinAt s.checkins user_id habit_id (today - i) = true)
    ∧ (get_current_streak s user_id habit_id today < 365 →
        userCheckinAt s.checkins user_id habit_id
          (today - (get_current_streak s user_id habit_id today : Nat)) = false)
    ∧ get_current_streak threeDayState 1 "h" 0 = 3
    ∧ get_current_streak emptyDM 1 "h" 0 = 0
    ∧ get_current_streak run400State 1 "h" 0 = 365 := by
  refine ⟨streakLoop_le s.checkins user_id habit_id 365 today,
          streakLoop_mem s.checkins user_id habit_id 365 today,
          streakLoop_stop s.checkins user_id habit_id 365 today, ?_, ?_, ?_⟩
  · rfl
  · rfl
  · show streakLoop run400State.checkins 1 "h" 0 365 = 365
    apply streakLoop_full
    intro i hi
    exact consecutiveCheckins_mem 1 "h" 400 0 i (by omega)

/-- C4 witness: the general theorem applied to the three-day store, at
`i = 0 < 3 = ` the computed streak. -/
theorem get_current_streak_spec_witness :
    userCheckinAt threeDayState.checkins 1 "h" (0 - ((0 : Nat) : Int)) = true :=
  (get_current_streak_spec threeDayState 1 "h" 0).2.1 0 (by decide)

/-- C9.  Actor asymmetry of the check-in interface: `crossUserState` holds
a check-in for `(habit "h", today)` recorded by user 1; for user 2,
`record_checkin` still rejects the duplicate (keyed only by habit and date,
leaving the store unchanged), while `is_checked_in_today` answers false and
the day contributes nothing to `get_current_streak` — both of those also
compare the stored record's `user_id`. -/
theorem checkin_actor_asymmetry :
    (record_checkin crossUserState 2 "h" 0 5).2 = false
    ∧ (record_checkin crossUserState 2 "h" 0 5).1 = crossUserState
    ∧ is_checked_in_today crossUserState 2 "h" 0 = false
    ∧ get_current_streak crossUserState 2 "h" 0 = 0
    ∧ is_checked_in_today crossUserState 1 "h" 0 = true := by
  refine ⟨rfl, rfl, rfl, rfl, rfl⟩

/-- C10.  `get_habit` never consults the `active` flag: any stored habit
owned by the querying user is returned, soft-deleted or not; consequently
`delete_habit` on such a habit returns `True` and stamps `active = False`,
`deleted_at = now` — and a second `delete_habit` returns `True` again,
overwriting `deleted_at` with the later time. -/
theorem get_habit_eq_of_find (s : DMState) (user_id : Int) (habit_id : String)
    (hb : Habit) (hfind : findHabit s.habits habit_id = some hb)
    (hown : hb.user_id = user_id) :
    get_habit s user_id habit_id = some hb := by
  unfold get_habit
  rw [hfind]
  exact if_pos hown

theorem delete_habit_of_get (s : DMState) (user_id : Int) (habit_id : String)
    (hb : Habit) (t : Int) (hget : get_habit s user_id habit_id = some hb) :
    delete_habit s user_id habit_id t
      = ({ s with habits := s.habits.map (fun x =>
            if x.id == habit_id then
              { x with active := some false, deleted_at := some t }
            else x) }, true) := by
  unfold delete_habit
  rw [hget]

theorem findHabit_after_delete (s : DMState) (user_id : Int) (habit_id : String)
    (hb : Habit) (t : Int)
    (hfind : findHabit s.habits habit_id = some hb)
    (hget : get_habit s user_id habit_id = some hb) :
    findHabit (delete_habit s user_id habit_id t).1.habits habit_id
      = some { hb with active := some false, deleted_at := some t } := by
  rw [delete_habit_of_get s user_id habit_id hb t hget]
  rw [findHabit_map_update s.habits habit_id
      (fun x => { x with active := some false, deleted_at := some t })
      (fun x => rfl), hfind]
  rfl

theorem get_habit_soft_delete_spec (s : DMState) (user_id : Int)
    (habit_id : String) (hb : Habit) (t1 t2 : Int)
    (hfind : findHabit s.habits habit_id = some hb)
    (hown : hb.user_id = user_id) :
    get_habit s user_id habit_id = some hb
    ∧ (delete_habit s user_id habit_id t1).2 = true
    ∧ findHabit (delete_habit s user_id habit_id t1).1.habits habit_id
        = some { hb with active := some false, deleted_at := some t1 }
    ∧ get_habit (delete_habit s user_id habit_id t1).1 user_id habit_id
        = some { hb with active := some false, deleted_at := some t1 }
    ∧ (delete_habit (delete_habit s user_id habit_id t1).1 user_id habit_id
        t2).2 = true
    ∧ findHabit (delete_habit (delete_habit s user_id habit_id t1).1 user_id
          habit_id t2).1.habits habit_id
        = some { hb with active := some false, deleted_at := some t2 } := by
  have hget : get_habit s user_id habit_id = some hb :=
    get_habit_eq_of_find s user_id habit_id hb hfind hown
  have hfind1 := findHabit_after_delete s user_id habit_id hb t1 hfind hget
  have hget1 : get_habit (delete_habit s user_id habit_id t1).1 user_id habit_id
      = some { hb with active := some false, deleted_at := some t1 } :=
    get_habit_eq_of_find _ user_id habit_id _ hfind1 hown
  have hfind2raw := findHabit_after_delete (delete_habit s user_id habit_id t1).1
      user_id habit_id ({ hb with active := some false, deleted_at := some t1 })
      t2 hfind1 hget1
  have hfind2 : findHabit (delete_habit (delete_habit s user_id habit_id t1).1
        user_id habit_id t2).1.habits habit_id
      = some { hb with active := some false, deleted_at := some t2 } :=
    hfind2raw
  refine ⟨hget, ?_, hfind1, hget1, ?_, hfind2⟩
  · rw [delete_habit_of_get s user_id habit_id hb t1 hget]
  · rw [delete_habit_of_get _ user_id habit_id _ t2 hget1]

/-- C10 witness: the general theorem applied to a store whose only habit is
already soft-deleted — it is still returned and re-deletable. -/
theorem get_habit_soft_delete_spec_witness :
    get_habit softDeletedState 1 "id0" = some softDeletedHabit
    ∧ (delete_habit softDeletedState 1 "id0" 20).2 = true := by
  have h := get_habit_soft_delete_spec softDeletedState 1 "id0" softDeletedHabit
    20 30 rfl rfl
  exact ⟨h.1, h.2.1⟩

/-- C2 witness: on an empty store a first check-in succeeds, and a second
one for the same habit and day — by a different user — fails. -/
theorem record_checkin_unique_spec_witness :
    (record_checkin (record_checkin emptyDM 1 "habit" 0 0).1 2 "habit" 0 5).2
      = false :=
  (record_checkin_unique_spec emptyDM 1 "habit" 0 0).2.2.2.2.2.2.2 rfl 2 5

/-- C1.  Every penalty the flood gate ever applies lasts 30 seconds: when a
violation is processed, `_is_penalized` has just reported `False` — which
means it either found no `penalties` entry or deleted the expired one — so
`_apply_penalty` never sees an existing entry and never escalates.  Even on
the (unreachable) escalation branch the duration would be
`min(30 * 3, 900) = 90`, not a tripling of the previous duration.  In the
concrete run, the first violation (`floodStep2`) and a repeated violation
after the penalty expired (`floodStep4`) both yield 30-second penalties,
where the claim expects 30 then 90. -/
theorem flood_penalty_never_escalates :
    (∀ (m : AntiFloodMiddleware) (user_id : Int) (now d : ℚ)
        (m2 : AntiFloodMiddleware),
        floodCall m user_id now = (m2, FloodOutcome.penalized d) → d = 30)
    ∧ (∀ (penalties : List (Int × ℚ)) (user_id : Int) (now : ℚ),
        penalties.any (fun p => p.1 == user_id) = true →
        (apply_penalty penalties user_id now).2 = 90)
    ∧ floodStep2.2 = FloodOutcome.penalized 30
    ∧ floodStep4.2 = FloodOutcome.penalized 30 := by
  refine ⟨?_, apply_penalty_with_entry, ?_, ?_⟩
  · intro m user_id now d m2 h
    unfold floodCall at h
    rcases hp : is_penalized m.penalties user_id now with ⟨b, pens⟩
    rw [hp] at h
    cases b
    · have hnone : pens.any (fun p => p.1 == user_id) = false := by
        have h1 := is_penalized_false_no_entry m.penalties user_id now
          (by rw [hp])
        rwa [hp] at h1
      simp only [] at h
      split at h
      · have hd : FloodOutcome.penalized (apply_penalty pens user_id now).2
            = FloodOutcome.penalized d := congrArg Prod.snd h
        have hd2 : (apply_penalty pens user_id now).2 = d := by
          injection hd
        rw [← hd2]
        exact apply_penalty_no_entry pens user_id now hnone
      · exact absurd (congrArg Prod.snd h) (by simp)
    · exact absurd (congrArg Prod.snd h) (by simp)
  · rw [floodStep2_eq]
  · rw [floodStep4_eq]

/-- C1 witness: even when an entry is present, `_apply_penalty` yields 90,
never more. -/
theorem flood_penalty_never_escalates_witness :
    (apply_penalty [((1 : Int), (31 : ℚ))] 1 0).2 = 90 :=
  flood_penalty_never_escalates.2.1 [((1 : Int), (31 : ℚ))] 1 0 rfl

/-- C5 counterexample: in the default-parameter gate, the sixth message in
the window trips a penalty, yet the user's sliding window is not emptied —
it still holds all six timestamps. -/
theorem flood_window_not_cleared_cex :
    floodWindowStep.2 = FloodOutcome.penalized 30
    ∧ dictGet floodWindowStep.1.user_message_count 1
        = some [0, 1, 2, 3, 4, 5]
    ∧ dictGet floodWindowStep.1.user_message_count 1 ≠ some [] := by
  rw [floodWindowStep_eq]
  refine ⟨rfl, rfl, ?_⟩
  simp [dictGet, List.find?]

/-- C5 (amended).  Entering a penalty rejects the current action (the
handler is not invoked), but the sliding window is not cleared: after the
penalizing call the user's window holds exactly the still-in-window old
timestamps followed by the current one. -/
theorem flood_penalty_keeps_window (m : AntiFloodMiddleware) (user_id : Int)
    (now d : ℚ) (m2 : AntiFloodMiddleware)
    (h : floodCall m user_id now = (m2, FloodOutcome.penalized d)) :
    dictGet m2.user_message_count user_id
      = some ((((dictGet m.user_message_count user_id).getD []).filter
          (fun msg_time => decide (now - msg_time ≤ m.flood_window))) ++ [now]) := by
  unfold floodCall at h
  rcases hp : is_penalized m.penalties user_id now with ⟨b, pens⟩
  rw [hp] at h
  cases b
  · simp only [] at h
    split at h
    · rw [Prod.mk.injEq] at h
      rw [← h.1]
      exact dictGet_dictInsert_self m.user_message_count user_id _
    · rw [Prod.mk.injEq] at h
      exact absurd h.2 (by simp)
  · simp only [] at h
    rw [Prod.mk.injEq] at h
    exact absurd h.2 (by simp)

/-- C5 witness: the amended theorem applied to the concrete default-gate
run. -/
theorem flood_penalty_keeps_window_witness :
    dictGet floodWindowStep.1.user_message_count 1
      = some ((((dictGet floodWindowState.user_message_count 1).getD []).filter
          (fun msg_time => decide ((5 : ℚ) - msg_time ≤
            floodWindowState.flood_window))) ++ [5]) := by
  apply flood_penalty_keeps_window floodWindowState 1 5 30 floodWindowStep.1
  have h1 : floodCall floodWindowState 1 5 = floodWindowStep := rfl
  rw [h1, floodWindowStep_eq]

/-- C6 counterexample: the trimmed name `"x"` is too short by the handler's
own rule and `"bogus"` is no frequency, yet the store's `add_habit`
succeeds, stores the habit, and returns `True` — there is no store-side
validation and no `ValidationError`. -/
theorem add_habit_no_validation_cex :
    habit_name_accepted "x" = false
    ∧ frequency_map "bogus" = none
    ∧ (add_habit emptyDM 1 "x" "bogus" "id0" 0).2 = true
    ∧ (add_habit emptyDM 1 "x" "bogus" "id0" 0).1.habits
        = [{ id := "id0", user_id := 1, name := "x", frequency := "bogus",
             created_at := 0, active := some true, deleted_at := none }] := by
  refine ⟨rfl, rfl, rfl, rfl⟩

/-- C6 (amended).  Name/frequency validation lives in the conversation
handlers, not the store: `process_habit_name` accepts exactly the inputs
whose trimmed length is between 2 and 50, and `process_habit_frequency`
maps accepted text into the three-value enum; the store's `add_habit`
itself validates nothing — for every input it stores a record under the
supplied fresh id (appending, when the id is genuinely fresh) and returns
the boolean `True`, not the id. -/
theorem add_habit_semantics (s : DMState) (user_id : Int)
    (name frequency habit_id : String) (now : Int) (text : String) :
    (add_habit s user_id name frequency habit_id now).2 = true
    ∧ (add_habit s user_id name frequency habit_id now).1.habits
        = habitsInsert s.habits
            { id := habit_id, user_id := user_id, name := name,
              frequency := frequency, created_at := now, active := some true,
              deleted_at := none }
    ∧ (s.habits.any (fun x => x.id == habit_id) = false →
        (add_habit s user_id name frequency habit_id now).1.habits
          = s.habits ++
            [{ id := habit_id, user_id := user_id, name := name,
               frequency := frequency, created_at := now, active := some true,
               deleted_at := none }])
    ∧ (habit_name_accepted text = true ↔
        2 ≤ (strip text).length ∧ (strip text).length ≤ 50)
    ∧ (∀ f, frequency_map text = some f →
        f = "daily" ∨ f = "weekly" ∨ f = "3_times_week") := by
  refine ⟨rfl, rfl, ?_, ?_, ?_⟩
  · intro hfresh
    show habitsInsert s.habits _ = _
    unfold habitsInsert
    rw [if_neg]
    rw [hfresh]
    simp
  · unfold habit_name_accepted
    simp only [Bool.not_eq_true', Bool.or_eq_false_iff, decide_eq_false_iff_not,
      Bool.not_eq_false, decide_eq_true_eq]
    omega
  · intro f hf
    unfold frequency_map at hf
    split at hf <;> simp_all

/-- C6 witness: the amended theorem applied on the empty store with a valid
name and frequency and a fresh id. -/
theorem add_habit_semantics_witness :
    (add_habit emptyDM 1 "Read" "daily" "id1" 3).1.habits
      = emptyDM.habits ++
        [{ id := "id1", user_id := 1, name := "Read", frequency := "daily",
           created_at := 3, active := some true, deleted_at := none }] :=
  (add_habit_semantics emptyDM 1 "Read" "daily" "id1" 3 "Read").2.2.1 rfl

/-- C7.  The pacing gate: with a recorded last-accepted time, an action is
rejected iff strictly less than `rate_limit` seconds elapsed, in which case
the reported wait is `rate_limit - elapsed` and the state (hence the stored
timestamp) is untouched; otherwise — and always when no timestamp is
tracked — the action is handled and `now` becomes the user's stored
last-accepted time.  Concretely, two actions 0.1 s apart under the default
1-second limit: the first is handled, the second rejected with
wait `0.9` s. -/
theorem throttling_pacing_spec (m : ThrottlingMiddleware) (user_id : Int)
    (now : ℚ) :
    (∀ last_request, dictGet m.user_requests user_id = some last_request →
        ((now - last_request < m.rate_limit →
            throttlingCall m user_id now
              = (m, ThrottleOutcome.rejected
                  (m.rate_limit - (now - last_request))))
         ∧ (¬ now - last_request < m.rate_limit →
            (throttlingCall m user_id now).2 = ThrottleOutcome.handled)))
    ∧ (dictGet m.user_requests user_id = none →
        (throttlingCall m user_id now).2 = ThrottleOutcome.handled)
    ∧ (∀ m2, throttlingCall m user_id now = (m2, ThrottleOutcome.handled) →
        dictGet m2.user_requests user_id = some now)
    ∧ throttleStep1.2 = ThrottleOutcome.handled
    ∧ throttleStep2.2 = ThrottleOutcome.rejected (9 / 10) := by
  refine ⟨?_, ?_, ?_, ?_, ?_⟩
  · intro last_request hlast
    constructor
    · intro hlt
      unfold throttlingCall
      rw [hlast]
      simp only [if_pos hlt]
    · intro hge
      unfold throttlingCall
      rw [hlast]
      simp only [if_neg hge]
  · intro hnone
    unfold throttlingCall
    rw [hnone]
  · intro m2 h
    unfold throttlingCall at h
    cases hopt : dictGet m.user_requests user_id with
    | none =>
        rw [hopt] at h
        simp only [] at h
        rw [Prod.mk.injEq] at h
        rw [← h.1]
        exact dictGet_insert_cleanup m.user_requests user_id now
    | some last_request =>
        rw [hopt] at h
        simp only [] at h
        split at h
        · rw [Prod.mk.injEq] at h
          exact absurd h.2 (by simp)
        · rw [Prod.mk.injEq] at h
          rw [← h.1]
          exact dictGet_insert_cleanup m.user_requests user_id now
  · rw [throttleStep1_eq]
  · rw [throttleStep2_eq]

/-- C7 witness: the general theorem at the post-first-action state, 0.1 s
later. -/
theorem throttling_pacing_spec_witness :
    throttlingCall { rate_limit := 1, user_requests := [(7, 0)] } 7 (1 / 10)
      = ({ rate_limit := 1, user_requests := [(7, 0)] },
         ThrottleOutcome.rejected ((1 : ℚ) - (1 / 10 - 0))) :=
  ((throttling_pacing_spec { rate_limit := 1, user_requests := [(7, 0)] }
      7 (1 / 10)).1 0 rfl).1 (by norm_num)

/-- C8.  `get_user_habits` lists, ordered by ascending creation time,
exactly the stored habits that belong to the user and are active (the
`active` flag defaulting to true when absent); soft deletion leaves the
check-in collection untouched, so a soft-deleted habit's check-ins still
count in `get_total_checkins`. -/
theorem get_user_habits_spec (s : DMState) (user_id : Int) :
    List.Pairwise (fun a b : Habit => a.created_at ≤ b.created_at)
      (get_user_habits s user_id)
    ∧ (∀ hb : Habit, hb ∈ get_user_habits s user_id ↔
        hb ∈ s.habits ∧ hb.user_id = user_id ∧ activeFlag hb = true)
    ∧ (∀ u2 hid t u3 hid2,
        get_total_checkins (delete_habit s u2 hid t).1 u3 hid2
          = get_total_checkins s u3 hid2)
    ∧ (∀ u2 hid t, (delete_habit s u2 hid t).1.checkins = s.checkins) := by
  have hckn : ∀ u2 hid t, (delete_habit s u2 hid t).1.checkins = s.checkins := by
    intro u2 hid t
    unfold delete_habit
    cases get_habit s u2 hid <;> rfl
  refine ⟨?_, ?_, ?_, hckn⟩
  · exact List.sorted_insertionSort
      (fun a b : Habit => a.created_at ≤ b.created_at) _
  · intro hb
    unfold get_user_habits
    rw [List.Perm.mem_iff (List.perm_insertionSort
      (fun a b : Habit => a.created_at ≤ b.created_at) _)]
    simp [List.mem_filter, activeFlag]
  · intro u2 hid t u3 hid2
    unfold get_total_checkins
    rw [hckn u2 hid t]

end HabitTracker
